import Mathlib

/-!
A shallow embedding of the Yellowgram messenger server (src/server.js):
the persisted data model (users.db, messages.db, groups.db), the in-memory
presence registry (onlineUsers) and per-socket identity binding
(socket.username), and the socket event handlers, together with theorems
about the handlers.

Server-to-client emissions are collected as a list of (socket id, event)
pairs; each handler maps a server state and an incoming event to the next
state and the emissions it performs, in program order.  The JavaScript
event loop serializes handler executions, so handlers are modelled as
atomic state transformers.
-/

namespace Yellowgram

/-- A socket.io connection identifier. -/
abbrev SocketId := Nat

/-- A persisted user document (users.db), as inserted by the authenticate
handler and mutated by update_profile and accept_request. -/
structure User where
  username : String
  password : String
  email : String
  avatar : String
  bio : String
  friends : List String
deriving DecidableEq, Repr

/-- A persisted group document (groups.db). -/
structure Group where
  name : String
  admin : String
  members : List String
deriving DecidableEq, Repr

/-- A persisted message document (messages.db): the spread of the client
payload plus the server-assigned sender and timestamp
(`{ ...data, from: socket.username, timestamp: new Date() }`).
The client payload carries `to`, `isGroup`, `body` and possibly an extra
`toGroup` field (the spread keeps every client field); client-supplied
`from`/`timestamp` fields are overwritten by the server, so they are not
modelled separately. -/
structure Message where
  «from» : String
  «to» : String
  toGroup : Option String
  isGroup : Bool
  body : String
  timestamp : Nat
deriving DecidableEq, Repr

/-- The client payload of a chat_message event. -/
structure ChatData where
  «to» : String
  toGroup : Option String
  isGroup : Bool
  body : String
deriving DecidableEq, Repr

/-- The client payload of an authenticate event (`email` may be absent). -/
structure AuthData where
  username : String
  password : String
  email : Option String
  isRegistering : Bool
deriving DecidableEq, Repr

/-- The client payload of an update_profile event.  The handler passes the
payload to `$set` verbatim, so any user field may appear, not only the
documented `bio`/`avatar`/`email`; an absent field is `none`. -/
structure ProfileUpdate where
  bio : Option String := none
  avatar : Option String := none
  email : Option String := none
  username : Option String := none
  password : Option String := none
  friends : Option (List String) := none
deriving DecidableEq, Repr

/-- Server-to-client events. -/
inductive SEvent where
  | auth_error (message : String)
  | auth_success (username : String)
  | update_user_list (l : List (String × Bool))
  | update_group_list (gs : List Group)
  | receive_request (fromName : String)
  | error_msg (message : String)
  | profile_data (username bio avatar email : String)
  | new_msg (m : Message)
  | chat_history (ms : List Message)
deriving DecidableEq, Repr

/-- The emissions performed by one handler run, in program order. -/
abbrev Output := List (SocketId × SEvent)

/-- The whole server state: the three document stores, the onlineUsers
object (username to socket id) and the socket.username bindings. -/
structure ServerState where
  users : List User
  messages : List Message
  groups : List Group
  online : List (String × SocketId)
  bound : List (SocketId × String)
deriving DecidableEq, Repr

/-- JavaScript object lookup (`obj[k]`), on an association list. -/
def aget {α β : Type} [DecidableEq α] : List (α × β) → α → Option β
  | [], _ => none
  | p :: rest, k => if p.1 = k then some p.2 else aget rest k

/-- JavaScript object assignment (`obj[k] = v`): overwrites the entry. -/
def aset {α β : Type} [DecidableEq α] : List (α × β) → α → β → List (α × β)
  | [], k, v => [(k, v)]
  | p :: rest, k, v => if p.1 = k then (k, v) :: rest else p :: aset rest k v

/-- JavaScript `delete obj[k]`. -/
def adel {α β : Type} [DecidableEq α] : List (α × β) → α → List (α × β)
  | [], _ => []
  | p :: rest, k => if p.1 = k then adel rest k else p :: adel rest k

/-- nedb `update(filter, ...)` without the multi flag: rewrites the first
matching document and leaves the rest of the store alone. -/
def updateFirst {α : Type} (p : α → Bool) (f : α → α) : List α → List α
  | [] => []
  | x :: xs => if p x then f x :: xs else x :: updateFirst p f xs

/-- nedb `$addToSet`: appends the value unless it is already present. -/
def addToSet (x : String) (l : List String) : List String :=
  if l.contains x then l else l ++ [x]

/-- `socket.username` for a connection (`none` when unauthenticated). -/
def boundUser (st : ServerState) (sid : SocketId) : Option String :=
  aget st.bound sid

/-- `onlineUsers[u]`: the presence registry lookup. -/
def lookupOnline (st : ServerState) (u : String) : Option SocketId :=
  aget st.online u

/-- nedb `findOne({ username })` on users.db. -/
def findUser (st : ServerState) (u : String) : Option User :=
  st.users.find? (fun x => x.username == u)

/-- nedb `findOne({ name })` on groups.db. -/
def findGroup (st : ServerState) (n : String) : Option Group :=
  st.groups.find? (fun g => g.name == n)

/-- nedb `find({ members: u })` on groups.db: groups containing `u`. -/
def groupsOf (st : ServerState) (u : String) : List Group :=
  st.groups.filter (fun g => g.members.contains u)

/-- Modelled from the spec: the black-box Credential Verifier hash
(bcrypt.hash in the code); an injective digest function. -/
def hashPassword (p : String) : String := "bcrypt10" ++ p

/-- Modelled from the spec: the Credential Verifier check
(bcrypt.compare in the code). -/
def verifyPassword (p digest : String) : Bool := digest == hashPassword p

/-- `broadcastUserList(socket)`: emits the caller's friends joined against
the presence registry, or nothing when the socket is unbound or its user
record is missing. -/
def broadcastUserList (st : ServerState) (sid : SocketId) : Output :=
  match boundUser st sid with
  | none => []
  | some uname =>
    match findUser st uname with
    | none => []
    | some user =>
      [(sid, .update_user_list (user.friends.map (fun f => (f, (lookupOnline st f).isSome))))]

/-- The user document inserted at registration. -/
def newUserDoc (d : AuthData) : User :=
  { username := d.username
    password := hashPassword d.password
    email := d.email.getD ""
    avatar := "/uploads/default-avatar.png"
    bio := ""
    friends := [] }

/-- The shared tail of a successful authenticate run: bind the socket,
register presence, emit auth_success, the friend snapshot and the caller's
group list. -/
def finishAuth (st : ServerState) (sid : SocketId) (uname : String) :
    ServerState × Output :=
  let st2 : ServerState :=
    { st with bound := aset st.bound sid uname, online := aset st.online uname sid }
  (st2, (sid, .auth_success uname) :: broadcastUserList st2 sid
        ++ [(sid, .update_group_list (groupsOf st2 uname))])

/-- The authenticate handler. -/
def authenticate (st : ServerState) (sid : SocketId) (d : AuthData) :
    ServerState × Output :=
  let user? := findUser st d.username
  if d.isRegistering then
    match user? with
    | some _ => (st, [(sid, .auth_error "اسم المستخدم هذا مأخوذ بالفعل")])
    | none => finishAuth { st with users := st.users ++ [newUserDoc d] } sid d.username
  else
    match user? with
    | none => (st, [(sid, .auth_error "خطأ في اسم المستخدم أو كلمة المرور")])
    | some u =>
      if verifyPassword d.password u.password then finishAuth st sid d.username
      else (st, [(sid, .auth_error "خطأ في اسم المستخدم أو كلمة المرور")])

/-- The send_request handler (friend request; never persisted). -/
def sendRequest (st : ServerState) (sid : SocketId) (targetName : String) :
    ServerState × Output :=
  match boundUser st sid with
  | none => (st, [])
  | some uname =>
    match findUser st targetName with
    | none => (st, [(sid, .error_msg "المستخدم غير موجود في النظام")])
    | some targetUser =>
      if targetUser.username == uname then
        (st, [(sid, .error_msg "لا يمكنك إضافة نفسك")])
      else
        match lookupOnline st targetName with
        | some targetSid => (st, [(targetSid, .receive_request uname)])
        | none => (st, [(sid, .error_msg "المستخدم غير متصل حالياً لإرسال الطلب")])

/-- The accept_request handler: two `$addToSet` updates, then refreshed
friend snapshots for both sides.  (The retrieval of the other side's live
socket object is modelled as succeeding whenever the registry has an
entry.) -/
def acceptRequest (st : ServerState) (sid : SocketId) (fromName : String) :
    ServerState × Output :=
  match boundUser st sid with
  | none => (st, [])
  | some uname =>
    let users1 := updateFirst (fun u => u.username == uname)
      (fun u => { u with friends := addToSet fromName u.friends }) st.users
    let users2 := updateFirst (fun u => u.username == fromName)
      (fun u => { u with friends := addToSet uname u.friends }) users1
    let st2 : ServerState := { st with users := users2 }
    (st2, broadcastUserList st2 sid ++
      match lookupOnline st2 fromName with
      | some otherSid => broadcastUserList st2 otherSid
      | none => [])

/-- The get_profile handler: no authentication check; emits nothing when
the target does not exist, and applies the empty-field placeholders. -/
def getProfile (st : ServerState) (sid : SocketId) (target : String) :
    ServerState × Output :=
  match findUser st target with
  | none => (st, [])
  | some u =>
    (st, [(sid, .profile_data u.username
      (if u.bio == "" then "لا يوجد وصف" else u.bio)
      (if u.avatar == "" then "/uploads/default-avatar.png" else u.avatar)
      u.email)])

/-- nedb `$set` with the update_profile payload: every field present in the
payload is written onto the document. -/
def applySet (d : ProfileUpdate) (u : User) : User :=
  { username := d.username.getD u.username
    password := d.password.getD u.password
    email := d.email.getD u.email
    avatar := d.avatar.getD u.avatar
    bio := d.bio.getD u.bio
    friends := d.friends.getD u.friends }

/-- The update_profile handler. -/
def updateProfile (st : ServerState) (sid : SocketId) (d : ProfileUpdate) :
    ServerState × Output :=
  match boundUser st sid with
  | none => (st, [])
  | some uname =>
    ({ st with users := updateFirst (fun u => u.username == uname) (applySet d) st.users }, [])

/-- The message document built by the chat_message handler. -/
def mkMessage (d : ChatData) (sender : String) (now : Nat) : Message :=
  { «from» := sender, «to» := d.«to», toGroup := d.toGroup, isGroup := d.isGroup
    body := d.body, timestamp := now }

/-- The chat_message handler (`sendMessage` in the spec): persist first,
then fan out.  `now` is the server clock read taken for the timestamp. -/
def sendMessage (st : ServerState) (sid : SocketId) (d : ChatData) (now : Nat) :
    ServerState × Output :=
  match boundUser st sid with
  | none => (st, [])
  | some uname =>
    let msg := mkMessage d uname now
    let st2 : ServerState := { st with messages := st.messages ++ [msg] }
    if d.isGroup then
      match findGroup st2 d.«to» with
      | none => (st2, [])
      | some group =>
        (st2, group.members.filterMap
          (fun m => (lookupOnline st2 m).map (fun msid => (msid, SEvent.new_msg msg))))
    else
      (st2, (match lookupOnline st2 d.«to» with
             | some recipientSid => [(recipientSid, SEvent.new_msg msg)]
             | none => []) ++ [(sid, SEvent.new_msg msg)])

/-- The create_group handler. -/
def createGroup (st : ServerState) (sid : SocketId) (name : String) :
    ServerState × Output :=
  match boundUser st sid with
  | none => (st, [])
  | some uname =>
    match findGroup st name with
    | some _ => (st, [(sid, .auth_error "الاسم محجوز")])
    | none =>
      let st2 : ServerState :=
        { st with groups := st.groups ++ [{ name := name, admin := uname, members := [uname] }] }
      (st2, [(sid, .update_group_list (groupsOf st2 uname))])

/-- The add_member handler: proceeds only when `gp?.admin === socket.username`
(strict equality of two possibly-undefined values), otherwise returns with
no emission and no state change. -/
def addMember (st : ServerState) (sid : SocketId) (groupName userToAdd : String) :
    ServerState × Output :=
  if (findGroup st groupName).map Group.admin = boundUser st sid then
    let groups2 := updateFirst (fun g => g.name == groupName)
      (fun g => { g with members := addToSet userToAdd g.members }) st.groups
    let st2 : ServerState := { st with groups := groups2 }
    (st2, match lookupOnline st2 userToAdd with
          | some targetSid => [(targetSid, .update_group_list (groupsOf st2 userToAdd))]
          | none => [])
  else (st, [])

/-- Ascending-timestamp comparison used by `.sort({ timestamp: 1 })`. -/
def tsLE (a b : Message) : Prop := a.timestamp ≤ b.timestamp

instance tsLEDecidable : DecidableRel tsLE := fun a b => Nat.decLe a.timestamp b.timestamp

instance tsLETotal : IsTotal Message tsLE := ⟨fun a b => Nat.le_total a.timestamp b.timestamp⟩

instance tsLETrans : IsTrans Message tsLE := ⟨fun _ _ _ => Nat.le_trans⟩

/-- The history query for one conversation: field filter `{ toGroup: other }`
for groups, the two-sided `$or` on `(from, to)` for direct chats. -/
def historyQuery (uname other : String) (isGroup : Bool) (m : Message) : Bool :=
  if isGroup then m.toGroup == some other
  else (m.«from» == uname && m.«to» == other) || (m.«from» == other && m.«to» == uname)

/-- The get_history handler: filter the message store and sort ascending by
timestamp. -/
def getHistory (st : ServerState) (sid : SocketId) (other : String) (isGroup : Bool) :
    ServerState × Output :=
  match boundUser st sid with
  | none => (st, [])
  | some uname =>
    (st, [(sid, .chat_history
      (List.insertionSort tsLE (st.messages.filter (historyQuery uname other isGroup))))])

/-- The disconnect handler: deletes only the presence entry for the
socket's bound username. -/
def onDisconnect (st : ServerState) (sid : SocketId) : ServerState × Output :=
  match boundUser st sid with
  | none => (st, [])
  | some uname => ({ st with online := adel st.online uname }, [])

/-- A client-to-server event (plus the connection teardown).  `chat_message`
carries the server clock read used for the message timestamp. -/
inductive ClientEvent where
  | authenticate (d : AuthData)
  | send_request (targetName : String)
  | accept_request (fromName : String)
  | get_profile (target : String)
  | update_profile (d : ProfileUpdate)
  | chat_message (d : ChatData) (now : Nat)
  | create_group (name : String)
  | add_member (groupName userToAdd : String)
  | get_history (other : String) (isGroup : Bool)
  | disconnect
deriving DecidableEq, Repr

/-- Dispatch of one incoming event on one connection. -/
def handle (st : ServerState) (sid : SocketId) : ClientEvent → ServerState × Output
  | .authenticate d => authenticate st sid d
  | .send_request targetName => sendRequest st sid targetName
  | .accept_request fromName => acceptRequest st sid fromName
  | .get_profile target => getProfile st sid target
  | .update_profile d => updateProfile st sid d
  | .chat_message d now => sendMessage st sid d now
  | .create_group name => createGroup st sid name
  | .add_member groupName userToAdd => addMember st sid groupName userToAdd
  | .get_history other isGroup => getHistory st sid other isGroup
  | .disconnect => onDisconnect st sid

/-- The server's boot state: empty stores, empty registry, no bindings. -/
def initialState : ServerState :=
  { users := [], messages := [], groups := [], online := [], bound := [] }

/-- States reachable from boot by any sequence of events on any sockets. -/
inductive Reachable : ServerState → Prop where
  | init : Reachable initialState
  | step : ∀ {st : ServerState} (sid : SocketId) (e : ClientEvent),
      Reachable st → Reachable (handle st sid e).1

/-- A login event for username `u` with password `p`. -/
def loginEvent (u p : String) : ClientEvent :=
  .authenticate { username := u, password := p, email := none, isRegistering := false }

/-- A concrete registration payload for the user alice. -/
def authAlice : AuthData :=
  { username := "alice", password := "pw", email := none, isRegistering := true }

/-- A concrete registration payload for the user bob. -/
def authBob : AuthData :=
  { username := "bob", password := "pw2", email := none, isRegistering := true }

/-- A group chat_message payload carrying exactly the documented fields
`to`, `isGroup`, `body` (no extra `toGroup` field). -/
def groupMsgData : ChatData :=
  { «to» := "team", toGroup := none, isGroup := true, body := "hi" }

/-- A direct chat_message payload from alice to bob. -/
def directMsgData : ChatData :=
  { «to» := "bob", toGroup := none, isGroup := false, body := "yo" }

/-- State after alice registers on socket 0. -/
def demoReg : ServerState := (handle initialState 0 (.authenticate authAlice)).1

/-- State after alice (socket 0) additionally creates the group team. -/
def demoGrp : ServerState := (handle demoReg 0 (.create_group "team")).1

/-- State after alice additionally sends `groupMsgData` at time 5. -/
def demoSent : ServerState := (handle demoGrp 0 (.chat_message groupMsgData 5)).1

/-- State after alice registers on socket 0 and bob registers on socket 1. -/
def demoTwo : ServerState := (handle demoReg 1 (.authenticate authBob)).1

/-- State `demoTwo` after bob's socket 1 disconnects (bob offline, alice
still bound and registered on socket 0). -/
def demoTwoOff : ServerState := (handle demoTwo 1 .disconnect).1

/-- A server state with a single persisted user alice and no live
connection at all. -/
def demoLoneUser : ServerState :=
  { users := [newUserDoc authAlice], messages := [], groups := [], online := [], bound := [] }

/-- The message document that `demoSent` persists. -/
def sentTeamMsg : Message :=
  { «from» := "alice"
    «to» := "team"
    toGroup := none
    isGroup := true
    body := "hi"
    timestamp := 5 }

/-- The group document created in `demoGrp`. -/
def teamGroup : Group :=
  { name := "team", admin := "alice", members := ["alice"] }

/-- An update_profile payload that smuggles a password field. -/
def evilUpdate : ProfileUpdate := { password := some "evil" }

/-- An update_profile payload confined to the documented fields. -/
def bioUpdate : ProfileUpdate := { bio := some "hello" }

theorem aget_aset_self {α β : Type} [DecidableEq α] (l : List (α × β)) (k : α) (v : β) :
    aget (aset l k v) k = some v := by
  induction l with
  | nil => simp [aset, aget]
  | cons p rest ih =>
    by_cases h : p.1 = k
    · simp [aset, aget, h]
    · simp [aset, aget, h, ih]

theorem aget_aset_other {α β : Type} [DecidableEq α] (l : List (α × β)) (k k2 : α) (v : β)
    (h : k2 ≠ k) : aget (aset l k v) k2 = aget l k2 := by
  induction l with
  | nil => simp [aset, aget, Ne.symm h]
  | cons p rest ih =>
    by_cases hp : p.1 = k
    · simp [aset, aget, hp, h, Ne.symm h]
    · by_cases hp2 : p.1 = k2
      · simp [aset, aget, hp, hp2, h, Ne.symm h]
      · simp [aset, aget, hp, hp2, ih]

theorem aget_adel_self {α β : Type} [DecidableEq α] (l : List (α × β)) (k : α) :
    aget (adel l k) k = none := by
  induction l with
  | nil => simp [adel, aget]
  | cons p rest ih =>
    by_cases h : p.1 = k
    · simp [adel, h, ih]
    · simp [adel, aget, h, ih]

theorem aget_adel_other {α β : Type} [DecidableEq α] (l : List (α × β)) (k k2 : α)
    (h : k2 ≠ k) : aget (adel l k) k2 = aget l k2 := by
  induction l with
  | nil => simp [adel]
  | cons p rest ih =>
    by_cases hp : p.1 = k
    · have hne : ¬ p.1 = k2 := fun e => h (hp ▸ e ▸ rfl)
      simp [adel, aget, hp, hne, h, Ne.symm h, ih]
    · by_cases hp2 : p.1 = k2
      · simp [adel, aget, hp, hp2, h, Ne.symm h]
      · simp [adel, aget, hp, hp2, ih]

theorem find?_updateFirst_self {α : Type} (p : α → Bool) (f : α → α) (l : List α)
    (hf : ∀ a, p a = true → p (f a) = true) :
    (updateFirst p f l).find? p = (l.find? p).map f := by
  induction l with
  | nil => rfl
  | cons x xs ih =>
    by_cases h : p x = true
    · rw [updateFirst, if_pos h, List.find?_cons_of_pos _ (hf x h),
        List.find?_cons_of_pos _ h]
      rfl
    · rw [updateFirst, if_neg (by simp [h]), List.find?_cons_of_neg _ (by simp [h]),
        List.find?_cons_of_neg _ (by simp [h]), ih]

theorem find?_updateFirst_other {α : Type} (p q : α → Bool) (f : α → α) (l : List α)
    (hq : ∀ a, q (f a) = q a) (hdisj : ∀ a, p a = true → q a = false) :
    (updateFirst p f l).find? q = l.find? q := by
  induction l with
  | nil => rfl
  | cons x xs ih =>
    by_cases h : p x = true
    · have hqx : q x = false := hdisj x h
      have hqfx : q (f x) = false := by rw [hq]; exact hqx
      rw [updateFirst, if_pos h, List.find?_cons_of_neg _ (by simp [hqfx]),
        List.find?_cons_of_neg _ (by simp [hqx])]
    · by_cases hqx : q x = true
      · rw [updateFirst, if_neg (by simp [h]), List.find?_cons_of_pos _ hqx,
          List.find?_cons_of_pos _ hqx]
      · rw [updateFirst, if_neg (by simp [h]), List.find?_cons_of_neg _ (by simp [hqx]),
          List.find?_cons_of_neg _ (by simp [hqx]), ih]

theorem mem_updateFirst {α : Type} (p : α → Bool) (f : α → α) (l : List α) (y : α)
    (hy : y ∈ updateFirst p f l) : y ∈ l ∨ ∃ x, x ∈ l ∧ y = f x := by
  induction l with
  | nil => simp [updateFirst] at hy
  | cons x xs ih =>
    by_cases h : p x = true
    · rw [updateFirst, if_pos h] at hy
      rcases List.mem_cons.1 hy with h1 | h1
      · exact Or.inr ⟨x, List.mem_cons_self x xs, h1⟩
      · exact Or.inl (List.mem_cons_of_mem x h1)
    · rw [updateFirst, if_neg (by simp [h])] at hy
      rcases List.mem_cons.1 hy with h1 | h1
      · exact Or.inl (h1 ▸ List.mem_cons_self x xs)
      · rcases ih h1 with h2 | ⟨z, hz, he⟩
        · exact Or.inl (List.mem_cons_of_mem x h2)
        · exact Or.inr ⟨z, List.mem_cons_of_mem x hz, he⟩

theorem self_mem_addToSet (x : String) (l : List String) : x ∈ addToSet x l := by
  unfold addToSet
  by_cases h : l.contains x
  · rw [if_pos h]; simpa using h
  · rw [if_neg h]; simp

theorem mem_addToSet_of_mem (x y : String) (l : List String) (h : y ∈ l) :
    y ∈ addToSet x l := by
  unfold addToSet
  by_cases hc : l.contains x
  · rw [if_pos hc]; exact h
  · rw [if_neg hc]; exact List.mem_append_left _ h

theorem addToSet_of_mem (x : String) (l : List String) (h : x ∈ l) :
    addToSet x l = l := by
  unfold addToSet
  rw [if_pos (by simpa using h)]

theorem sendRequest_state (st : ServerState) (sid : SocketId) (t : String) :
    (sendRequest st sid t).1 = st := by
  simp only [sendRequest]
  repeat' split
  all_goals rfl

theorem getProfile_state (st : ServerState) (sid : SocketId) (t : String) :
    (getProfile st sid t).1 = st := by
  simp only [getProfile]
  repeat' split
  all_goals rfl

theorem getHistory_state (st : ServerState) (sid : SocketId) (o : String) (b : Bool) :
    (getHistory st sid o b).1 = st := by
  simp only [getHistory]
  repeat' split
  all_goals rfl

theorem finishAuth_groups (st : ServerState) (sid : SocketId) (u : String) :
    ((finishAuth st sid u).1).groups = st.groups := rfl

theorem authenticate_groups (st : ServerState) (sid : SocketId) (d : AuthData) :
    ((authenticate st sid d).1).groups = st.groups := by
  simp only [authenticate, finishAuth]
  repeat' split
  all_goals rfl

theorem acceptRequest_groups (st : ServerState) (sid : SocketId) (f : String) :
    ((acceptRequest st sid f).1).groups = st.groups := by
  simp only [acceptRequest]
  repeat' split
  all_goals rfl

theorem updateProfile_groups (st : ServerState) (sid : SocketId) (d : ProfileUpdate) :
    ((updateProfile st sid d).1).groups = st.groups := by
  simp only [updateProfile]
  repeat' split
  all_goals rfl

theorem sendMessage_groups (st : ServerState) (sid : SocketId) (d : ChatData) (now : Nat) :
    ((sendMessage st sid d now).1).groups = st.groups := by
  simp only [sendMessage]
  repeat' split
  all_goals rfl

theorem onDisconnect_groups (st : ServerState) (sid : SocketId) :
    ((onDisconnect st sid).1).groups = st.groups := by
  simp only [onDisconnect]
  repeat' split
  all_goals rfl

theorem updateFirst_extends_groups (gs : List Group) (n x : String) (g : Group) (hg : g ∈ gs) :
    ∃ g2, g2 ∈ updateFirst (fun h => h.name == n)
        (fun h => { h with members := addToSet x h.members }) gs ∧
      g2.name = g.name ∧ g2.admin = g.admin ∧ ∀ m ∈ g.members, m ∈ g2.members := by
  induction gs with
  | nil => simp at hg
  | cons y ys ih =>
    by_cases hy : (y.name == n) = true
    · rcases List.mem_cons.1 hg with rfl | hmem
      · refine ⟨{ g with members := addToSet x g.members }, ?_, rfl, rfl, ?_⟩
        · rw [updateFirst, if_pos hy]
          exact List.mem_cons_self _ _
        · exact fun m hm => mem_addToSet_of_mem _ _ _ hm
      · refine ⟨g, ?_, rfl, rfl, fun m hm => hm⟩
        rw [updateFirst, if_pos hy]
        exact List.mem_cons_of_mem _ hmem
    · rcases List.mem_cons.1 hg with rfl | hmem
      · refine ⟨g, ?_, rfl, rfl, fun m hm => hm⟩
        rw [updateFirst, if_neg hy]
        exact List.mem_cons_self _ _
      · rcases ih hmem with ⟨g2, hg2, h1, h2, h3⟩
        refine ⟨g2, ?_, h1, h2, h3⟩
        rw [updateFirst, if_neg hy]
        exact List.mem_cons_of_mem _ hg2

theorem handle_preserves_adminMember (st : ServerState) (sid : SocketId) (e : ClientEvent)
    (h : ∀ g ∈ st.groups, g.admin ∈ g.members) :
    ∀ g ∈ (handle st sid e).1.groups, g.admin ∈ g.members := by
  cases e with
  | authenticate d => rw [handle, authenticate_groups]; exact h
  | send_request t => rw [handle, sendRequest_state]; exact h
  | accept_request f => rw [handle, acceptRequest_groups]; exact h
  | get_profile t => rw [handle, getProfile_state]; exact h
  | update_profile d => rw [handle, updateProfile_groups]; exact h
  | chat_message d now => rw [handle, sendMessage_groups]; exact h
  | get_history o b => rw [handle, getHistory_state]; exact h
  | disconnect => rw [handle, onDisconnect_groups]; exact h
  | create_group name =>
    rw [handle]
    unfold createGroup
    cases hb : boundUser st sid with
    | none => exact h
    | some uname =>
      cases hg : findGroup st name with
      | some g0 => exact h
      | none =>
        intro g hgmem
        simp only [List.mem_append, List.mem_singleton] at hgmem
        rcases hgmem with hgmem | rfl
        · exact h g hgmem
        · simp
  | add_member gName uToAdd =>
    rw [handle]
    unfold addMember
    by_cases hc : (findGroup st gName).map Group.admin = boundUser st sid
    · rw [if_pos hc]
      intro g hgmem
      rcases mem_updateFirst _ _ _ _ hgmem with hmem | ⟨x, hx, rfl⟩
      · exact h g hmem
      · exact mem_addToSet_of_mem _ _ _ (h x hx)
    · rw [if_neg hc]
      exact h

theorem reachable_adminMember (st : ServerState) (h : Reachable st) :
    ∀ g ∈ st.groups, g.admin ∈ g.members := by
  induction h with
  | init => intro g hg; simp [initialState] at hg
  | step sid e _ ih => exact handle_preserves_adminMember _ sid e ih

theorem handle_groups_extend (st : ServerState) (sid : SocketId) (e : ClientEvent)
    (g : Group) (hg : g ∈ st.groups) :
    ∃ g2, g2 ∈ (handle st sid e).1.groups ∧ g2.name = g.name ∧ g2.admin = g.admin ∧
      ∀ m ∈ g.members, m ∈ g2.members := by
  cases e with
  | authenticate d =>
    exact ⟨g, by rw [handle, authenticate_groups]; exact hg, rfl, rfl, fun m hm => hm⟩
  | send_request t =>
    exact ⟨g, by rw [handle, sendRequest_state]; exact hg, rfl, rfl, fun m hm => hm⟩
  | accept_request f =>
    exact ⟨g, by rw [handle, acceptRequest_groups]; exact hg, rfl, rfl, fun m hm => hm⟩
  | get_profile t =>
    exact ⟨g, by rw [handle, getProfile_state]; exact hg, rfl, rfl, fun m hm => hm⟩
  | update_profile d =>
    exact ⟨g, by rw [handle, updateProfile_groups]; exact hg, rfl, rfl, fun m hm => hm⟩
  | chat_message d now =>
    exact ⟨g, by rw [handle, sendMessage_groups]; exact hg, rfl, rfl, fun m hm => hm⟩
  | get_history o b =>
    exact ⟨g, by rw [handle, getHistory_state]; exact hg, rfl, rfl, fun m hm => hm⟩
  | disconnect =>
    exact ⟨g, by rw [handle, onDisconnect_groups]; exact hg, rfl, rfl, fun m hm => hm⟩
  | create_group name =>
    refine ⟨g, ?_, rfl, rfl, fun m hm => hm⟩
    rw [handle]
    unfold createGroup
    cases hb : boundUser st sid with
    | none => exact hg
    | some uname =>
      cases hq : findGroup st name with
      | some g0 => exact hg
      | none => exact List.mem_append_left _ hg
  | add_member gName uToAdd =>
    rw [handle]
    unfold addMember
    by_cases hc : (findGroup st gName).map Group.admin = boundUser st sid
    · rw [if_pos hc]
      exact updateFirst_extends_groups st.groups gName uToAdd g hg
    · rw [if_neg hc]
      exact ⟨g, hg, rfl, rfl, fun m hm => hm⟩

/-- C8: in every reachable store state every group's member set contains
its admin; moreover no single event ever removes a member or changes a
group's admin — each stored group survives any handler with the same name
and admin and a member set that only grows. -/
theorem group_admin_always_member (st : ServerState) (h : Reachable st) :
    (∀ g ∈ st.groups, g.admin ∈ g.members) ∧
    (∀ (st2 : ServerState) (sid : SocketId) (e : ClientEvent) (g : Group), g ∈ st2.groups →
      ∃ g2, g2 ∈ (handle st2 sid e).1.groups ∧ g2.name = g.name ∧ g2.admin = g.admin ∧
        ∀ m ∈ g.members, m ∈ g2.members) :=
  ⟨reachable_adminMember st h, fun st2 sid e g hg => handle_groups_extend st2 sid e g hg⟩

/-- C8 witness: the invariant evaluated at the concrete reachable state in
which alice has registered and created the group team. -/
theorem group_admin_always_member_witness :
    (∀ g ∈ demoGrp.groups, g.admin ∈ g.members) ∧
    (∀ (st2 : ServerState) (sid : SocketId) (e : ClientEvent) (g : Group), g ∈ st2.groups →
      ∃ g2, g2 ∈ (handle st2 sid e).1.groups ∧ g2.name = g.name ∧ g2.admin = g.admin ∧
        ∀ m ∈ g.members, m ∈ g2.members) :=
  group_admin_always_member demoGrp
    (Reachable.step 0 (.create_group "team")
      (Reachable.step 0 (.authenticate authAlice) Reachable.init))

/-- C5: add_member on an existing group invoked by a caller whose bound
identity is not the group's admin leaves the whole server state unchanged
and emits no event at all (silently dropped). -/
theorem addMember_nonAdmin_silently_dropped (st : ServerState) (sid : SocketId)
    (gName uToAdd : String) (g : Group)
    (hg : findGroup st gName = some g)
    (hne : boundUser st sid ≠ some g.admin) :
    handle st sid (.add_member gName uToAdd) = (st, []) := by
  have hc : ¬ ((findGroup st gName).map Group.admin = boundUser st sid) := by
    rw [hg]
    exact fun hcc => hne hcc.symm
  rw [handle]
  unfold addMember
  rw [if_neg hc]

/-- C5 witness: an unbound caller on socket 1 tries to add bob to alice's
group team; nothing changes and nothing is emitted. -/
theorem addMember_nonAdmin_silently_dropped_witness :
    findGroup demoGrp "team" = some { name := "team", admin := "alice", members := ["alice"] } ∧
    handle demoGrp 1 (.add_member "team" "bob") = (demoGrp, []) :=
  ⟨by decide, addMember_nonAdmin_silently_dropped demoGrp 1 "team" "bob"
    { name := "team", admin := "alice", members := ["alice"] } (by decide) (by decide)⟩

/-- C10: get_profile performs no authentication check: on any connection,
bound or not, it emits exactly one profile_data event for an existing
target (with the empty-bio and empty-avatar placeholders applied) and
nothing for a missing target, and its emissions do not depend on the
socket bindings at all. -/
theorem getProfile_requires_no_auth (st : ServerState) (sid : SocketId) (target : String) :
    (∀ u, findUser st target = some u →
      handle st sid (.get_profile target) =
        (st, [(sid, .profile_data u.username
          (if u.bio == "" then "لا يوجد وصف" else u.bio)
          (if u.avatar == "" then "/uploads/default-avatar.png" else u.avatar)
          u.email)])) ∧
    (findUser st target = none → handle st sid (.get_profile target) = (st, [])) ∧
    (handle st sid (.get_profile target)).2 =
      (handle { st with bound := [] } sid (.get_profile target)).2 := by
  refine ⟨fun u hu => ?_, fun hn => ?_, ?_⟩
  · rw [handle]
    unfold getProfile
    rw [hu]
  · rw [handle]
    unfold getProfile
    rw [hn]
  · rw [handle, handle]
    unfold getProfile
    rw [show findUser { st with bound := ([] : List (SocketId × String)) } target
          = findUser st target from rfl]
    cases findUser st target <;> rfl

/-- C10 witness: on a state with one stored user and no binding at all,
socket 5 gets alice's profile (with the bio placeholder) and nothing for a
missing target. -/
theorem getProfile_requires_no_auth_witness :
    handle demoLoneUser 5 (.get_profile "alice") =
      (demoLoneUser, [(5, .profile_data "alice" "لا يوجد وصف" "/uploads/default-avatar.png" "")]) ∧
    handle demoLoneUser 5 (.get_profile "carol") = (demoLoneUser, []) :=
  ⟨(getProfile_requires_no_auth demoLoneUser 5 "alice").1 (newUserDoc authAlice) (by decide),
   (getProfile_requires_no_auth demoLoneUser 5 "carol").2.1 (by decide)⟩

/-- C6: a friend request from a bound and registered sender to an existing
target with no presence entry yields only the offline error_msg to the
sender and leaves the entire server state (users, groups, messages,
registry, bindings) unchanged. -/
theorem sendRequest_offline_target (st : ServerState) (sid : SocketId)
    (s target : String) (tu : User)
    (hb : boundUser st sid = some s)
    (hreg : lookupOnline st s = some sid)
    (ht : findUser st target = some tu)
    (hoff : lookupOnline st target = none) :
    handle st sid (.send_request target) =
      (st, [(sid, .error_msg "المستخدم غير متصل حالياً لإرسال الطلب")]) := by
  have htu : tu.username = target := by
    have hp := List.find?_some ht
    simpa using hp
  have hne : (tu.username == s) = false := by
    rw [htu]
    refine beq_eq_false_iff_ne.2 (fun he => ?_)
    rw [he, hreg] at hoff
    cases hoff
  rw [handle]
  simp only [sendRequest, hb, ht, hne, Bool.false_eq_true, if_false, hoff]

/-- C6 witness: alice (bound and online on socket 0) sends a request to
bob, who exists but has disconnected; she gets the offline error and the
state is untouched. -/
theorem sendRequest_offline_target_witness :
    handle demoTwoOff 0 (.send_request "bob") =
      (demoTwoOff, [(0, .error_msg "المستخدم غير متصل حالياً لإرسال الطلب")]) :=
  sendRequest_offline_target demoTwoOff 0 "alice" "bob" (newUserDoc authBob)
    (by decide) (by decide) (by decide) (by decide)

/-- C4: a chat_message from a bound sender appends exactly one message
document, carrying the server-assigned timestamp, before any delivery
(no other store, the registry or the bindings change), and for a direct
target the emissions are exactly a push to the recipient's socket when the
recipient has a presence entry plus, always, an echo to the sender's own
socket. -/
theorem sendMessage_persists_then_delivers (st : ServerState) (sid : SocketId)
    (s : String) (d : ChatData) (now : Nat)
    (hb : boundUser st sid = some s) :
    (handle st sid (.chat_message d now)).1.messages = st.messages ++ [mkMessage d s now] ∧
    (handle st sid (.chat_message d now)).1.users = st.users ∧
    (handle st sid (.chat_message d now)).1.groups = st.groups ∧
    (handle st sid (.chat_message d now)).1.online = st.online ∧
    (handle st sid (.chat_message d now)).1.bound = st.bound ∧
    (d.isGroup = false →
      (handle st sid (.chat_message d now)).2 =
        (match lookupOnline st d.«to» with
         | some recipientSid => [(recipientSid, SEvent.new_msg (mkMessage d s now))]
         | none => []) ++ [(sid, SEvent.new_msg (mkMessage d s now))]) := by
  refine ⟨?_, ?_, ?_, ?_, ?_, fun hng => ?_⟩
  · rw [handle]
    simp only [sendMessage, hb]
    repeat' split
    all_goals rfl
  · rw [handle]
    simp only [sendMessage, hb]
    repeat' split
    all_goals rfl
  · rw [handle]
    simp only [sendMessage, hb]
    repeat' split
    all_goals rfl
  · rw [handle]
    simp only [sendMessage, hb]
    repeat' split
    all_goals rfl
  · rw [handle]
    simp only [sendMessage, hb]
    repeat' split
    all_goals rfl
  · rw [handle]
    simp only [sendMessage, hb, hng, Bool.false_eq_true, if_false]
    rfl

/-- C4 witness: alice (socket 0) sends a direct message to bob while bob
is registered on socket 1; the message with timestamp 7 is appended and
the emissions are the push to bob plus the echo to alice. -/
theorem sendMessage_persists_then_delivers_witness :
    (handle demoTwo 0 (.chat_message directMsgData 7)).1.messages =
      demoTwo.messages ++ [mkMessage directMsgData "alice" 7] ∧
    (handle demoTwo 0 (.chat_message directMsgData 7)).1.users = demoTwo.users ∧
    (handle demoTwo 0 (.chat_message directMsgData 7)).1.groups = demoTwo.groups ∧
    (handle demoTwo 0 (.chat_message directMsgData 7)).1.online = demoTwo.online ∧
    (handle demoTwo 0 (.chat_message directMsgData 7)).1.bound = demoTwo.bound ∧
    (directMsgData.isGroup = false →
      (handle demoTwo 0 (.chat_message directMsgData 7)).2 =
        (match lookupOnline demoTwo directMsgData.«to» with
         | some recipientSid => [(recipientSid, SEvent.new_msg (mkMessage directMsgData "alice" 7))]
         | none => []) ++ [(0, SEvent.new_msg (mkMessage directMsgData "alice" 7))]) :=
  sendMessage_persists_then_delivers demoTwo 0 "alice" directMsgData 7 (by decide)

/-- C7: registration with an existing username fails with the
duplicate-identity error and changes nothing; with a fresh username it
appends exactly one user document (hashed password, defaulted email,
default avatar, empty bio, empty friends), emits auth_success, and binds
and registers the connection, touching no other store. -/
theorem authenticate_register (st : ServerState) (sid : SocketId) (d : AuthData)
    (hreg : d.isRegistering = true) :
    (∀ u0, findUser st d.username = some u0 →
      handle st sid (.authenticate d) =
        (st, [(sid, .auth_error "اسم المستخدم هذا مأخوذ بالفعل")])) ∧
    (findUser st d.username = none →
      (handle st sid (.authenticate d)).1.users = st.users ++
        [{ username := d.username, password := hashPassword d.password,
           email := d.email.getD "", avatar := "/uploads/default-avatar.png",
           bio := "", friends := [] }] ∧
      boundUser (handle st sid (.authenticate d)).1 sid = some d.username ∧
      lookupOnline (handle st sid (.authenticate d)).1 d.username = some sid ∧
      (sid, SEvent.auth_success d.username) ∈ (handle st sid (.authenticate d)).2 ∧
      (handle st sid (.authenticate d)).1.messages = st.messages ∧
      (handle st sid (.authenticate d)).1.groups = st.groups) := by
  constructor
  · intro u0 hu0
    rw [handle]
    simp only [authenticate, hreg, if_true, hu0]
  · intro hn
    rw [handle]
    simp only [authenticate, hreg, if_true, hn, finishAuth]
    refine ⟨?_, ?_, ?_, ?_, ?_, ?_⟩ <;>
      first
        | rfl
        | exact aget_aset_self _ _ _
        | exact List.mem_cons_self _ _
        | trivial

/-- C7 witness: alice registers on the empty boot state. -/
theorem authenticate_register_witness :
    (handle initialState 0 (.authenticate authAlice)).1.users = initialState.users ++
      [{ username := "alice", password := hashPassword "pw",
         email := "", avatar := "/uploads/default-avatar.png",
         bio := "", friends := [] }] ∧
    boundUser (handle initialState 0 (.authenticate authAlice)).1 0 = some "alice" ∧
    lookupOnline (handle initialState 0 (.authenticate authAlice)).1 "alice" = some 0 ∧
    (0, SEvent.auth_success "alice") ∈ (handle initialState 0 (.authenticate authAlice)).2 ∧
    (handle initialState 0 (.authenticate authAlice)).1.messages = initialState.messages ∧
    (handle initialState 0 (.authenticate authAlice)).1.groups = initialState.groups :=
  (authenticate_register initialState 0 authAlice rfl).2 rfl

/-- C2 counterexample: an update_profile payload carrying a password field
overwrites the stored password hash of the caller's own record, so the
handler does not confine its effect to bio, avatar and email for every
payload the client sends. -/
theorem updateProfile_overwrites_password :
    (findUser demoReg "alice").map User.password = some (hashPassword "pw") ∧
    (findUser (handle demoReg 0 (.update_profile evilUpdate)).1 "alice").map User.password =
      some "evil" := by
  exact ⟨by decide, by decide⟩

/-- C2 amended: update_profile applies exactly the fields present in the
payload to the caller's own record and emits nothing; for payloads
confined to bio, avatar and email, the username, password hash and friends
of the caller are unchanged, every other record is untouched, and no other
store changes. -/
theorem updateProfile_sets_only_payload_fields (st : ServerState) (sid : SocketId)
    (s : String) (d : ProfileUpdate) (hb : boundUser st sid = some s)
    (hu : d.username = none) (hp : d.password = none) (hf : d.friends = none) :
    (handle st sid (.update_profile d)).2 = [] ∧
    (handle st sid (.update_profile d)).1.messages = st.messages ∧
    (handle st sid (.update_profile d)).1.groups = st.groups ∧
    (handle st sid (.update_profile d)).1.online = st.online ∧
    (handle st sid (.update_profile d)).1.bound = st.bound ∧
    (∀ m, m ≠ s → findUser (handle st sid (.update_profile d)).1 m = findUser st m) ∧
    findUser (handle st sid (.update_profile d)).1 s = (findUser st s).map (applySet d) ∧
    (∀ u, (applySet d u).username = u.username ∧ (applySet d u).password = u.password ∧
      (applySet d u).friends = u.friends) := by
  have husr : ∀ a : User, (applySet d a).username = a.username := by
    intro a
    simp [applySet, hu]
  refine ⟨?_, ?_, ?_, ?_, ?_, ?_, ?_, ?_⟩
  · rw [handle]
    simp only [updateProfile, hb]
  · rw [handle]
    simp only [updateProfile, hb]
  · rw [handle]
    simp only [updateProfile, hb]
  · rw [handle]
    simp only [updateProfile, hb]
  · rw [handle]
    simp only [updateProfile, hb]
  · intro m hm
    rw [handle]
    simp only [updateProfile, hb, findUser]
    refine find?_updateFirst_other _ _ _ _ ?_ ?_
    · intro a
      rw [husr a]
    · intro a ha
      have ha2 : a.username = s := by simpa using ha
      rw [ha2]
      exact beq_eq_false_iff_ne.2 (fun e => hm e.symm)
  · rw [handle]
    simp only [updateProfile, hb, findUser]
    refine find?_updateFirst_self _ _ _ ?_
    intro a ha
    rw [husr a]
    exact ha
  · intro u
    refine ⟨husr u, ?_, ?_⟩
    · simp [applySet, hp]
    · simp [applySet, hf]

/-- C2 witness: alice updates only her bio; nothing but her own record's
payload fields changes. -/
theorem updateProfile_sets_only_payload_fields_witness :
    (handle demoReg 0 (.update_profile bioUpdate)).2 = [] ∧
    (handle demoReg 0 (.update_profile bioUpdate)).1.messages = demoReg.messages ∧
    (handle demoReg 0 (.update_profile bioUpdate)).1.groups = demoReg.groups ∧
    (handle demoReg 0 (.update_profile bioUpdate)).1.online = demoReg.online ∧
    (handle demoReg 0 (.update_profile bioUpdate)).1.bound = demoReg.bound ∧
    (∀ m, m ≠ "alice" →
      findUser (handle demoReg 0 (.update_profile bioUpdate)).1 m = findUser demoReg m) ∧
    findUser (handle demoReg 0 (.update_profile bioUpdate)).1 "alice" =
      (findUser demoReg "alice").map (applySet bioUpdate) ∧
    (∀ u, (applySet bioUpdate u).username = u.username ∧
      (applySet bioUpdate u).password = u.password ∧
      (applySet bioUpdate u).friends = u.friends) :=
  updateProfile_sets_only_payload_fields demoReg 0 "alice" bioUpdate (by decide) rfl rfl rfl

/-- C3: after accept_request by a bound accepter A naming B, A's stored
record (which exists) lists B as a friend and any stored record named B
lists A as a friend, for all subsequent reads of the store; the underlying
$addToSet set-addition is idempotent (a no-op when the name is already
present). -/
theorem acceptRequest_mutual_friends (st : ServerState) (sid : SocketId) (A B : String)
    (hb : boundUser st sid = some A) (uA : User) (hA : findUser st A = some uA) :
    (∃ u, findUser (handle st sid (.accept_request B)).1 A = some u ∧ B ∈ u.friends) ∧
    (∀ u, findUser (handle st sid (.accept_request B)).1 B = some u → A ∈ u.friends) ∧
    (∀ x l, x ∈ l → addToSet x l = l) := by
  simp only [findUser] at hA
  rw [handle]
  simp only [acceptRequest, hb, findUser]
  refine ⟨?_, ?_, fun x l h => addToSet_of_mem x l h⟩
  · by_cases hAB : A = B
    · subst hAB
      rw [find?_updateFirst_self (fun u => u.username == A)
          (fun u => { u with friends := addToSet A u.friends })
          (updateFirst (fun x => x.username == A)
            (fun u => { u with friends := addToSet A u.friends }) st.users)
          (fun a ha => ha),
        find?_updateFirst_self (fun x => x.username == A)
          (fun u => { u with friends := addToSet A u.friends })
          st.users (fun a ha => ha), hA]
      exact ⟨_, rfl, self_mem_addToSet A _⟩
    · rw [find?_updateFirst_other (fun u => u.username == B) (fun x => x.username == A)
          (fun u => { u with friends := addToSet A u.friends })
          (updateFirst (fun x => x.username == A)
            (fun u => { u with friends := addToSet B u.friends }) st.users)
          (fun a => rfl)
          (fun a ha => by
            have ha2 : a.username = B := by simpa using ha
            show (a.username == A) = false
            rw [ha2]
            exact beq_eq_false_iff_ne.2 (Ne.symm hAB)),
        find?_updateFirst_self (fun x => x.username == A)
          (fun u => { u with friends := addToSet B u.friends })
          st.users (fun a ha => ha), hA]
      exact ⟨_, rfl, self_mem_addToSet B _⟩
  · intro u hu
    rw [find?_updateFirst_self (fun u2 => u2.username == B)
        (fun u2 => { u2 with friends := addToSet A u2.friends })
        (updateFirst (fun x => x.username == A)
          (fun u2 => { u2 with friends := addToSet B u2.friends }) st.users)
        (fun a ha => ha)] at hu
    cases hw : (updateFirst (fun x => x.username == A)
        (fun u2 => { u2 with friends := addToSet B u2.friends }) st.users).find?
        (fun u2 => u2.username == B) with
    | none => rw [hw] at hu; cases hu
    | some w =>
      rw [hw] at hu
      cases hu
      exact self_mem_addToSet A _

/-- C3 witness: alice (socket 0) accepts bob's request in the state where
both are registered; afterwards each lists the other. -/
theorem acceptRequest_mutual_friends_witness :
    (∃ u, findUser (handle demoTwo 0 (.accept_request "bob")).1 "alice" = some u ∧
      "bob" ∈ u.friends) ∧
    (∀ u, findUser (handle demoTwo 0 (.accept_request "bob")).1 "bob" = some u →
      "alice" ∈ u.friends) ∧
    (∀ x l, x ∈ l → addToSet x l = l) :=
  acceptRequest_mutual_friends demoTwo 0 "alice" "bob" (by decide)
    (newUserDoc authAlice) (by decide)

/-- C1 counterexample: the message persisted by chat_message with the
documented group payload (target in `to`, isGroup set, no extra `toGroup`
field) targets the existing group team, yet get_history for team returns
the empty history: the history query filters on the absent `toGroup`
field while the send path routes group messages by their `to` field. -/
theorem getHistory_group_misses_sent_message :
    demoSent.messages = [sentTeamMsg] ∧ sentTeamMsg.isGroup = true ∧
    sentTeamMsg.«to» = "team" ∧ findGroup demoSent "team" = some teamGroup ∧
    handle demoSent 0 (.get_history "team" true) = (demoSent, [(0, .chat_history [])]) := by
  exact ⟨by decide, by decide, by decide, by decide, by decide⟩

/-- C1 amended: for a bound requester, get_history with the group flag
emits exactly one chat_history whose list contains exactly (as a
permutation) the persisted messages whose toGroup field equals the group
name, sorted in ascending timestamp order, and changes no state; messages
whose payload carried the group target only in `to` are not included. -/
theorem getHistory_group_returns_toGroup_sorted (st : ServerState) (sid : SocketId)
    (r g : String) (hb : boundUser st sid = some r) :
    ∃ l, handle st sid (.get_history g true) = (st, [(sid, .chat_history l)]) ∧
      l.Perm (st.messages.filter (fun m => m.toGroup == some g)) ∧
      List.Sorted tsLE l := by
  refine ⟨List.insertionSort tsLE (st.messages.filter (historyQuery r g true)), ?_, ?_, ?_⟩
  · rw [handle]
    unfold getHistory
    rw [hb]
  · rw [show historyQuery r g true = fun m => m.toGroup == some g from rfl]
    exact List.perm_insertionSort tsLE _
  · exact List.sorted_insertionSort tsLE _

/-- C1 amended witness: the history of team in the demo state is the empty
list, which is indeed the sorted list of the messages carrying
`toGroup = "team"` (there are none, though a message sent to team exists). -/
theorem getHistory_group_returns_toGroup_sorted_witness :
    ∃ l, handle demoSent 0 (.get_history "team" true) = (demoSent, [(0, .chat_history l)]) ∧
      l.Perm (demoSent.messages.filter (fun m => m.toGroup == some "team")) ∧
      List.Sorted tsLE l :=
  getHistory_group_returns_toGroup_sorted demoSent 0 "alice" "team" (by decide)

/-- C9: when a username logs in on socket A, logs in again on socket B
(overwriting its registry entry), and then socket A disconnects, the
presence entry for the username is deleted — lookup reports the user
offline — although socket B is still bound to that username. -/
theorem stale_presence_after_relogin (st : ServerState) (A B : SocketId)
    (u p : String) (usr : User)
    (hu : findUser st u = some usr) (hv : verifyPassword p usr.password = true) :
    lookupOnline (handle (handle (handle st A (loginEvent u p)).1
        B (loginEvent u p)).1 A .disconnect).1 u = none ∧
    boundUser (handle (handle (handle st A (loginEvent u p)).1
        B (loginEvent u p)).1 A .disconnect).1 B = some u := by
  have h1 : (handle st A (loginEvent u p)).1 =
      { st with bound := aset st.bound A u, online := aset st.online u A } := by
    rw [loginEvent, handle]
    simp only [authenticate, Bool.false_eq_true, if_false, hu, hv, if_true, finishAuth]
  have hu1 : findUser
      ({ st with bound := aset st.bound A u, online := aset st.online u A }) u = some usr := hu
  have h2 : (handle (handle st A (loginEvent u p)).1 B (loginEvent u p)).1 =
      { st with bound := aset (aset st.bound A u) B u,
                online := aset (aset st.online u A) u B } := by
    rw [h1, loginEvent, handle]
    simp only [authenticate, Bool.false_eq_true, if_false, hu1, hv, if_true, finishAuth]
  have hbA : boundUser
      ({ st with bound := aset (aset st.bound A u) B u,
                 online := aset (aset st.online u A) u B }) A = some u := by
    rw [boundUser]
    by_cases hAB : A = B
    · rw [hAB]
      exact aget_aset_self _ _ _
    · rw [aget_aset_other _ _ _ _ hAB]
      exact aget_aset_self _ _ _
  have h3 : (handle (handle (handle st A (loginEvent u p)).1 B (loginEvent u p)).1
      A .disconnect).1 =
      { st with bound := aset (aset st.bound A u) B u,
                online := adel (aset (aset st.online u A) u B) u } := by
    rw [handle]
    unfold onDisconnect
    simp only [h2, hbA]
  constructor
  · rw [h3, lookupOnline]
    exact aget_adel_self _ _
  · rw [h3, boundUser]
    exact aget_aset_self _ _ _

/-- C9 witness: alice logs in on socket 2, again on socket 3, then socket
2 disconnects; her presence entry is gone while socket 3 is still bound to
alice. -/
theorem stale_presence_after_relogin_witness :
    lookupOnline (handle (handle (handle demoLoneUser 2 (loginEvent "alice" "pw")).1
        3 (loginEvent "alice" "pw")).1 2 .disconnect).1 "alice" = none ∧
    boundUser (handle (handle (handle demoLoneUser 2 (loginEvent "alice" "pw")).1
        3 (loginEvent "alice" "pw")).1 2 .disconnect).1 3 = some "alice" :=
  stale_presence_after_relogin demoLoneUser 2 3 "alice" "pw" (newUserDoc authAlice)
    (by decide) (by decide)

end Yellowgram
